import Mathlib

/-!
# api-vista-hub — verification of the filtering / aggregation logic

Shallow embedding of the client-side logic of the API-catalog app:
record assembly (`fetchApis`, `fetchApiById`), the create flow
(`createApi`), the dashboard aggregation (`getDashboardMetrics`) and the
search page's filter/sort effect (`SearchApis`), all translated from
`src/integrations/supabase/types.ts` and the search page component.

JS numbers that carry stats (call counts, uptime) are modelled as `ℚ`;
timestamps are modelled as epoch milliseconds (`ℤ`); `Math.random()` is
modelled as an explicit stream `ℕ → ℚ` indexed by call order.
-/

namespace ApiVistaHub

/-- `api_categories` row. -/
structure ApiCategory where
  id : String
  name : String
  color : String
deriving DecidableEq, Repr

/-- `api_stats` row. -/
structure ApiStats where
  id : String
  api_id : String
  total_calls : ℚ
  last_week_calls : ℚ
  uptime : ℚ
  response_time : ℚ
  updated_at : Int
deriving DecidableEq, Repr

/-- `api_endpoints` row. -/
structure ApiEndpoint where
  id : String
  api_id : String
  path : String
  method : String
  description : String
  created_at : Int
deriving DecidableEq, Repr

/-- A raw `apis` table row.  In the database schema `auth_type` is an
unconstrained `string` (`Database.public.Tables.apis.Row`), so any string can
be stored; `created_at` is modelled as the epoch-millisecond instant the
stored timestamp string parses to. -/
structure ApiRow where
  id : String
  name : String
  description : String
  version : String
  owner : String
  base_url : String
  documentation_url : Option String
  category_id : String
  tags : List String
  auth_type : String
  auth_description : Option String
  created_at : Int
  updated_at : Int
deriving DecidableEq, Repr

/-- The enriched `Api` shape returned by the read paths: the raw row plus the
resolved `category`, `stats` and `endpoints`.  The TS interface declares
`auth_type: 'apiKey' | 'oauth2' | 'none'`, but at runtime the field holds
whatever string the assembly produces, so we keep `String` here. -/
structure Api where
  id : String
  name : String
  description : String
  version : String
  owner : String
  base_url : String
  documentation_url : Option String
  category_id : String
  tags : List String
  auth_type : String
  auth_description : Option String
  created_at : Int
  updated_at : Int
  category : Option ApiCategory
  stats : Option ApiStats
  endpoints : List ApiEndpoint
deriving DecidableEq, Repr

/-- Runtime semantics of `(api.auth_type as 'apiKey' | 'oauth2' | 'none') || 'none'`
in `fetchApis` / `fetchApiById`: the TypeScript `as` cast exists only at
compile time, and `|| 'none'` replaces only a falsy value (the empty string —
the column is non-nullable).  Every other stored string passes through
unchanged. -/
def normalizeAuthType (s : String) : String :=
  if s = "" then "none" else s

/-- `Object.fromEntries` followed by property lookup: when several entries
share a key the later entry wins. -/
def objLookup {β : Type} : List (String × β) → String → Option β
  | [], _ => none
  | (k, v) :: rest, key =>
    match objLookup rest key with
    | some r => some r
    | none => if k == key then some v else none

/-- The per-row combination step of `fetchApis` (lines 417–424): spread the
raw row, normalize `auth_type`, attach `categoriesMap[category_id]`,
`statsMap[id]` and `endpointsMap[id] || []`. -/
def enrichApi (cats : List ApiCategory) (stats : List ApiStats)
    (eps : List ApiEndpoint) (row : ApiRow) : Api :=
  { id := row.id
    name := row.name
    description := row.description
    version := row.version
    owner := row.owner
    base_url := row.base_url
    documentation_url := row.documentation_url
    category_id := row.category_id
    tags := row.tags
    auth_type := normalizeAuthType row.auth_type
    auth_description := row.auth_description
    created_at := row.created_at
    updated_at := row.updated_at
    category := objLookup (cats.map fun c => (c.id, c)) row.category_id
    stats := objLookup (stats.map fun s => (s.api_id, s)) row.id
    endpoints := eps.filter fun e => e.api_id == row.id }

/-- `fetchApis`: the primary `apis` fetch either fails (the thrown error is
caught, a toast is shown and `[]` is returned) or yields the rows; the
secondary fetches are modelled by `Option` — `none` when that fetch failed or
returned no data, in which case the code falls back to an empty map for that
part of the join.  The second component records whether an error was surfaced
to the user; the function is total, so no exception ever escapes. -/
def fetchApisModel (apisRes : Except String (List ApiRow))
    (catsRes : Option (List ApiCategory)) (statsRes : Option (List ApiStats))
    (epsRes : Option (List ApiEndpoint)) : List Api × Bool :=
  match apisRes with
  | .error _ => ([], true)
  | .ok rows =>
    if rows.isEmpty then ([], false)
    else (rows.map (enrichApi (catsRes.getD []) (statsRes.getD []) (epsRes.getD [])), false)

/-- `fetchApiById`: primary fetch failure or a missing row yields `null`;
the per-id secondary fetches attach directly (category `.single()`, stats
`.maybeSingle()`, endpoints list defaulted to `[]`). -/
def fetchApiByIdModel (apiRes : Except String (Option ApiRow))
    (catRes : Option ApiCategory) (statsRes : Option ApiStats)
    (epsRes : Option (List ApiEndpoint)) : Option Api :=
  match apiRes with
  | .error _ => none
  | .ok none => none
  | .ok (some row) =>
    some
      { id := row.id
        name := row.name
        description := row.description
        version := row.version
        owner := row.owner
        base_url := row.base_url
        documentation_url := row.documentation_url
        category_id := row.category_id
        tags := row.tags
        auth_type := normalizeAuthType row.auth_type
        auth_description := row.auth_description
        created_at := row.created_at
        updated_at := row.updated_at
        category := catRes
        stats := statsRes
        endpoints := epsRes.getD [] }

/-- The stats payload optionally supplied to `createApi`. -/
structure StatsInsert where
  total_calls : ℚ
  last_week_calls : ℚ
  uptime : ℚ
  response_time : ℚ
deriving DecidableEq, Repr

/-- An endpoint payload supplied to `createApi`. -/
structure EndpointInsert where
  path : String
  method : String
  description : String
deriving DecidableEq, Repr

/-- One committed write of the create flow.  `statsRow default` records
whether the stats insert was the default row (`insert({api_id})`) or the
supplied payload. -/
inductive WriteStep where
  | apiRow : WriteStep
  | statsRow (defaultRow : Bool) : WriteStep
  | endpointRows : WriteStep
deriving DecidableEq, Repr

/-- `createApi`: inserts the API row, then the stats row (the default one when
`apiData.stats` is absent), then — only when a non-empty endpoint list was
supplied — the endpoint rows.  Each step's outcome is an explicit input; a
thrown step error is caught, a toast is shown and `null` is returned.  The
second component is the list of writes committed before returning; nothing is
ever rolled back.  On full success the function returns `fetchApiById(api.id)`,
modelled by the `fetched` argument. -/
def createApiModel (apiIns : Except String ApiRow)
    (statsInput : Option StatsInsert) (statsIns : Except String Unit)
    (endpointsInput : Option (List EndpointInsert))
    (endpointsIns : Except String Unit)
    (fetched : Option Api) : Option Api × List WriteStep :=
  match apiIns with
  | .error _ => (none, [])
  | .ok _ =>
    match statsIns with
    | .error _ => (none, [WriteStep.apiRow])
    | .ok _ =>
      match endpointsInput with
      | some (_ :: _) =>
        match endpointsIns with
        | .error _ => (none, [WriteStep.apiRow, WriteStep.statsRow statsInput.isNone])
        | .ok _ =>
          (fetched, [WriteStep.apiRow, WriteStep.statsRow statsInput.isNone,
            WriteStep.endpointRows])
      | _ => (fetched, [WriteStep.apiRow, WriteStep.statsRow statsInput.isNone])

/-! ## Search page filter/sort engine (`SearchApis`) -/

/-- `toLowerCase()` on a string, character by character. -/
def jsToLower (s : String) : String :=
  String.mk (s.data.map Char.toLower)

/-- Does `needle` match `hay` starting at its head? -/
def matchesAt : List Char → List Char → Bool
  | [], _ => true
  | _ :: _, [] => false
  | c :: cs, d :: ds => c == d && matchesAt cs ds

/-- Does `needle` occur somewhere in `hay`? -/
def hasSub : List Char → List Char → Bool
  | hay, needle =>
    match hay with
    | [] => matchesAt needle []
    | _ :: rest => matchesAt needle hay || hasSub rest needle

/-- `hay.includes(needle)` on JS strings. -/
def strIncludes (hay needle : String) : Bool :=
  hasSub hay.toList needle.toList

/-- The search predicate of `SearchApis` (lines 512–517): `query` is the
already-lowercased search query; a record matches when its lowercased name,
lowercased description, or some lowercased tag contains it. -/
def apiMatchesQuery (query : String) (api : Api) : Bool :=
  strIncludes (jsToLower api.name) query ||
    strIncludes (jsToLower api.description) query ||
    api.tags.any fun t => strIncludes (jsToLower t) query

/-- The text-filter step: `if (searchQuery) { ... filter ... }` — the empty
string is falsy, so an empty query applies no filter. -/
def applySearchFilter (searchQuery : String) (l : List Api) : List Api :=
  if searchQuery == "" then l
  else l.filter (apiMatchesQuery (jsToLower searchQuery))

/-- Popularity key: `api.stats?.total_calls || 0` (absent stats, and a stored
zero, both give `0`). -/
def callsOf (a : Api) : ℚ :=
  match a.stats with
  | none => 0
  | some s => s.total_calls

/-- Rating key: `api.stats?.uptime || 0` (absent stats, and a stored zero,
both give `0`). -/
def ratingKey (a : Api) : ℚ :=
  match a.stats with
  | none => 0
  | some s => s.uptime

/-- The four `sortBy` keys of the search page. -/
inductive SortBy where
  | name : SortBy
  | date : SortBy
  | popularity : SortBy
  | rating : SortBy
deriving DecidableEq, Repr

/-- The `switch (filters.sortBy)` sort (lines 531–547).  `Array.prototype.sort`
is stable, with `a` placed before `b` exactly when the comparator allows it,
so each branch is the stable sort for its comparator's total preorder. -/
def sortStep : SortBy → List Api → List Api
  | SortBy.name, l => List.insertionSort (fun a b => a.name ≤ b.name) l
  | SortBy.date, l => List.insertionSort (fun a b => b.created_at ≤ a.created_at) l
  | SortBy.popularity, l => List.insertionSort (fun a b => callsOf b ≤ callsOf a) l
  | SortBy.rating, l => List.insertionSort (fun a b => ratingKey b ≤ ratingKey a) l

/-- The component state touched by the filter effect: the fetched list `apis`
and the displayed list `filteredApis`. -/
structure SearchState where
  apis : List Api
  filteredApis : List Api
deriving DecidableEq, Repr

/-- The filter effect of `SearchApis` (lines 504–549): early return when
`apis` is empty; otherwise copy the list (`[...apis]`), apply the three
filters in sequence, sort the copy in place, and store it as `filteredApis`.
The fetched list itself is never written. -/
def runFilterEffect (st : SearchState) (searchQuery : String)
    (category : String) (authType : String) (sortBy : SortBy) : SearchState :=
  if st.apis.isEmpty then st
  else
    let results := st.apis
    let results := applySearchFilter searchQuery results
    let results :=
      if category != "all" then results.filter (fun a => a.category_id == category)
      else results
    let results :=
      if authType != "all" then results.filter (fun a => a.auth_type == authType)
      else results
    let results := sortStep sortBy results
    { st with filteredApis := results }

/-! ## Dashboard metrics (`getDashboardMetrics`) -/

/-- One accumulated category group: identifier, display name (from the first
record seen in that category) and member count. -/
structure CatGroup where
  id : String
  name : String
  count : ℕ
deriving DecidableEq, Repr

/-- `categoryCounts[id].count++`, creating the entry on first sight (object
keys keep insertion order). -/
def bumpCategory : List CatGroup → String → String → List CatGroup
  | [], cid, cname => [⟨cid, cname, 1⟩]
  | g :: rest, cid, cname =>
    if g.id == cid then { g with count := g.count + 1 } :: rest
    else g :: bumpCategory rest cid cname

/-- One step of the `categoryCounts` accumulation (lines 603–610): records
without a resolved category are skipped. -/
def categoryStep (acc : List CatGroup) (a : Api) : List CatGroup :=
  match a.category with
  | none => acc
  | some cat => bumpCategory acc cat.id cat.name

/-- The `categoryCounts` accumulation over the whole list. -/
def categoryCounts (apis : List Api) : List CatGroup :=
  apis.foldl categoryStep []

/-- `Math.round((count / totalApis) * 100)` in exact arithmetic: for
non-negative `x`, `Math.round x = ⌊x + 1/2⌋`, and
`⌊100 c / n + 1/2⌋ = (200 c + n) / (2 n)` in natural division. -/
def roundPct (count totalApis : ℕ) : ℕ :=
  (200 * count + totalApis) / (2 * totalApis)

/-- `popularCategories` (lines 612–618): stable sort of the groups by count
descending, keep 5, map to name and rounded percentage of `totalApis`. -/
def popularCategoriesModel (apis : List Api) : List (String × ℕ) :=
  (((categoryCounts apis).insertionSort fun g h => h.count ≤ g.count).take 5).map
    fun g => (g.name, roundPct g.count apis.length)

/-- The default uptime literal `99.9` of the `topApis` projection, as the
exact rational 999/10. -/
def uptimeDefault : ℚ := mkRat 999 10

/-- One `topApis` entry. -/
structure TopApi where
  id : String
  name : String
  calls : ℚ
  uptime : ℚ
deriving DecidableEq, Repr

/-- The `topApis` projection (lines 624–629): `api.stats?.total_calls || 0`
and `api.stats?.uptime || 99.9` — note a stored uptime of `0` is falsy and
also yields `99.9`. -/
def projTop (a : Api) : TopApi :=
  { id := a.id
    name := a.name
    calls := callsOf a
    uptime :=
      match a.stats with
      | none => uptimeDefault
      | some s => if s.uptime = 0 then uptimeDefault else s.uptime }

/-- `topApis` (lines 621–623): stable sort of a copy by total calls
descending, take 3, project. -/
def topApisModel (apis : List Api) : List TopApi :=
  ((apis.insertionSort fun a b => callsOf b ≤ callsOf a).take 3).map projTop

/-- `totalApiCalls` (line 592): left fold of `sum + (api.stats?.total_calls || 0)`
over the list, from 0. -/
def totalApiCallsModel (apis : List Api) : ℚ :=
  apis.foldl (fun sum a => sum + callsOf a) 0

/-- A JS `Date` broken into calendar fields: year, month index (0–11), day of
month (1-based) and milliseconds elapsed in the day, all UTC. -/
structure JsDate where
  year : Int
  month : ℕ
  day : ℕ
  msOfDay : Int
deriving DecidableEq, Repr

/-- Days from the civil epoch 1970-01-01 for a (possibly unnormalized) day
`d` of 1-based month `m` of year `y` — the standard civil-calendar formula;
`Int` division is floored for the positive divisors used here. -/
def daysFromCivil (y m d : Int) : Int :=
  let y := if m ≤ 2 then y - 1 else y
  let era := y / 400
  let yoe := y - era * 400
  let mp := (m + 9) % 12
  let doy := (153 * mp + 2) / 5 + d - 1
  let doe := yoe * 365 + yoe / 4 - yoe / 100 + doy
  era * 146097 + doe - 719468

/-- The epoch-millisecond value of a `JsDate`; an out-of-range `day` rolls
over exactly as JS `MakeDay` does. -/
def jsDateMillis (dt : JsDate) : Int :=
  (daysFromCivil dt.year (dt.month + 1) 1 + (dt.day - 1)) * 86400000 + dt.msOfDay

/-- `oneMonthAgo.setMonth(oneMonthAgo.getMonth() - 1)`: decrement the month
index, borrowing from the year below January; the day of month and time of
day are kept as stored (normalization happens in `jsDateMillis`). -/
def setMonthMinus1 (dt : JsDate) : JsDate :=
  if dt.month = 0 then { dt with year := dt.year - 1, month := 11 }
  else { dt with month := dt.month - 1 }

/-- `newApisLastMonth` (lines 594–599): count of records created strictly
after the instant one calendar month before `now`. -/
def newApisLastMonthModel (now : JsDate) (apis : List Api) : ℕ :=
  (apis.filter fun a => jsDateMillis (setMonthMinus1 now) < a.created_at).length

/-- The dashboard summary structure returned by `getDashboardMetrics`. -/
structure DashboardMetrics where
  totalApis : ℕ
  totalApiCalls : ℚ
  newApisLastMonth : ℕ
  activeUsers : Int
  popularCategories : List (String × ℕ)
  apiCallsOverTime : List (String × Int)
  topApis : List TopApi
deriving DecidableEq, Repr

/-- The mocked month labels of `apiCallsOverTime`. -/
def monthLabels : List String :=
  ["Ene", "Feb", "Mar", "Abr", "May", "Jun"]

/-- `getDashboardMetrics` (lines 585–656) over an already-fetched list.
`now` is the evaluation instant; `rand i` is the value of the `i`-th
`Math.random()` call (six for `apiCallsOverTime`, the seventh for
`activeUsers`). -/
def getDashboardMetricsModel (apis : List Api) (now : JsDate)
    (rand : ℕ → ℚ) : DashboardMetrics :=
  { totalApis := apis.length
    totalApiCalls := totalApiCallsModel apis
    newApisLastMonth := newApisLastMonthModel now apis
    activeUsers := ⌊rand 6 * 1000⌋ + 1000
    popularCategories := popularCategoriesModel apis
    apiCallsOverTime :=
      monthLabels.enum.map fun p =>
        (p.2, 800000 + (p.1 : Int) * 150000 + ⌊rand p.1 * 100000⌋)
    topApis := topApisModel apis }

/-! ## Claim-side formulations (written from the spec/claim wording, for
comparison against the code-side definitions above) -/

/-- The text-filter predicate as the claim words it: the record's name,
description, or at least one tag contains the query as a case-insensitive
substring (both sides lowercased). -/
def claimTextPred (query : String) (a : Api) : Bool :=
  strIncludes (jsToLower a.name) (jsToLower query) ||
    strIncludes (jsToLower a.description) (jsToLower query) ||
    a.tags.any fun t => strIncludes (jsToLower t) (jsToLower query)

/-- Modelled from the claim's words: the uptime key with a record lacking a
stats row treated as having the default `99.9` uptime. -/
def claimUptimeDefault (a : Api) : ℚ :=
  match a.stats with
  | none => uptimeDefault
  | some s => s.uptime

/-- Modelled from the claim's words: the rating sort under the claim's
treatment of missing stats (`99.9` default uptime). -/
def claimRatingSort (l : List Api) : List Api :=
  List.insertionSort (fun a b => claimUptimeDefault b ≤ claimUptimeDefault a) l

/-- Modelled from the claim's words: the count of records whose creation
timestamp falls within the last 30 days (30 · 86400000 ms) of `now`. -/
def thirtyDayCount (now : JsDate) (apis : List Api) : ℕ :=
  (apis.filter fun a => jsDateMillis now - 2592000000 < a.created_at).length

/-! ## Concrete records used by counterexamples and witnesses -/

/-- A neutral enriched record; the per-claim constants below override the
fields each claim exercises. -/
def sampleApi : Api :=
  { id := "id0"
    name := "Sample API"
    description := "sample"
    version := "1.0"
    owner := "owner"
    base_url := "https://example.test"
    documentation_url := none
    category_id := "cat0"
    tags := []
    auth_type := "none"
    auth_description := none
    created_at := 0
    updated_at := 0
    category := none
    stats := none
    endpoints := [] }

/-- A raw row whose stored `auth_type` is the out-of-set value `"basic"`. -/
def c2Row : ApiRow :=
  { id := "a1"
    name := "A"
    description := "d"
    version := "1"
    owner := "o"
    base_url := "u"
    documentation_url := none
    category_id := "c1"
    tags := []
    auth_type := "basic"
    auth_description := none
    created_at := 0
    updated_at := 0 }

/-- Category `A` for the percentage counterexample. -/
def c1CatA : ApiCategory := ⟨"A", "Alpha", "#f00"⟩

/-- Category `B` for the percentage counterexample. -/
def c1CatB : ApiCategory := ⟨"B", "Beta", "#0f0"⟩

/-- Category `C` for the percentage counterexample. -/
def c1CatC : ApiCategory := ⟨"C", "Gamma", "#00f"⟩

/-- A record placed in the given category. -/
def c1mk (i : String) (cat : ApiCategory) : Api :=
  { sampleApi with id := i, category_id := cat.id, category := some cat }

/-- Eight records: 3 in `A`, 3 in `B`, 2 in `C` — group shares 3/8, 3/8, 2/8,
whose rounded percentages are 38, 38 and 25. -/
def c1Apis : List Api :=
  [c1mk "a1" c1CatA, c1mk "a2" c1CatA, c1mk "a3" c1CatA,
   c1mk "b1" c1CatB, c1mk "b2" c1CatB, c1mk "b3" c1CatB,
   c1mk "c1" c1CatC, c1mk "c2" c1CatC]

/-- A record with no stats row. -/
def c3NoStats : Api :=
  { sampleApi with id := "ns", name := "NoStats API" }

/-- A stats row with uptime 50. -/
def c3LowStats : ApiStats :=
  { id := "s1", api_id := "low", total_calls := 10, last_week_calls := 1,
    uptime := 50, response_time := 100, updated_at := 0 }

/-- A record whose stats row has uptime 50 — below the claimed 99.9
default. -/
def c3Low : Api :=
  { sampleApi with id := "low", name := "Low API", stats := some c3LowStats }

/-- Created 2024-02-15T20:00:00Z. -/
def c4Record : Api :=
  { sampleApi with
      id := "r1"
      created_at := daysFromCivil 2024 2 15 * 86400000 + 72000000 }

/-- Evaluation instant 2024-03-16T12:00:00Z (month index 2 is March). -/
def c4Now : JsDate := ⟨2024, 2, 16, 43200000⟩

/-- A stats row whose stored uptime is the falsy value `0`. -/
def c5ZeroStats : ApiStats :=
  { id := "s5", api_id := "z", total_calls := 5, last_week_calls := 2,
    uptime := 0, response_time := 80, updated_at := 0 }

/-- A record whose attached stats row has uptime `0`. -/
def c5Zero : Api :=
  { sampleApi with id := "z", name := "Zero Uptime API", stats := some c5ZeroStats }

/-- The "Payment API" record of the search scenario. -/
def c6Payment : Api :=
  { sampleApi with
      id := "p"
      name := "Payment API"
      description := "Process card payments"
      tags := ["payments", "finance"] }

/-- The "Weather API" record of the search scenario. -/
def c6Weather : Api :=
  { sampleApi with
      id := "w"
      name := "Weather API"
      description := "Forecast data"
      tags := ["weather"] }

/-- An arbitrary evaluation instant for the determinism counterexample. -/
def c10Now : JsDate := ⟨2024, 0, 1, 0⟩

/-! ## Helper lemmas -/

/-- A stable sort leaves a list alone when every ordered pair is already
allowed by the relation (in particular when all sort keys are equal). -/
theorem insertionSort_eq_self_of_forall_rel {α : Type} (r : α → α → Prop)
    [DecidableRel r] (l : List α) (h : ∀ a ∈ l, ∀ b ∈ l, r a b) :
    List.insertionSort r l = l :=
  List.Sorted.insertionSort_eq (List.pairwise_of_forall_mem_list h)

/-- The empty needle occurs in every haystack. -/
theorem hasSub_nil_needle (l : List Char) : hasSub l [] = true := by
  cases l <;> simp [hasSub, matchesAt]

/-- `hay.includes("")` is true. -/
theorem strIncludes_empty (s : String) : strIncludes s "" = true := by
  simpa [strIncludes] using hasSub_nil_needle s.toList

/-- Lowercasing the empty string gives the empty string. -/
theorem jsToLower_empty : jsToLower "" = "" := rfl

/-- The modelled default uptime is the literal `99.9`. -/
theorem uptimeDefault_eq : uptimeDefault = 99.9 := by
  norm_num [uptimeDefault]

/-! ## Claims -/

/-- C2: the claim says every stored auth-mode value outside
{`apiKey`,`oauth2`,`none`} is coerced to `none` during record assembly.  The
TypeScript `as` cast has no runtime effect and `|| 'none'` replaces only the
falsy empty string, so the stored value `"basic"` flows through both read
paths unchanged — contradicting the `Api` interface's declared
`auth_type: 'apiKey' | 'oauth2' | 'none'`.  This theorem evaluates the code
at the failing input. -/
theorem claim_C2 :
    (fetchApisModel (Except.ok [c2Row]) (some []) (some []) (some [])).1.map
        (fun a => a.auth_type) = ["basic"] ∧
    (fetchApiByIdModel (Except.ok (some c2Row)) none none none).map
        (fun a => a.auth_type) = some "basic" ∧
    normalizeAuthType "" = "none" ∧
    ¬ ("basic" = "apiKey" ∨ "basic" = "oauth2" ∨ "basic" = "none") := by
  decide

/-- C7: during `fetchApis`, a failing categories, stats or endpoints fetch
degrades to an empty collection for that part of the join while the others
stay attached (a failure run equals the run given the empty collection, and
under a categories failure every returned record's `category` is `undefined`);
a failing primary fetch aborts the read, yielding `[]` with a surfaced error;
a successful primary fetch never surfaces an error.  `fetchApisModel` is a
total function, so no exception reaches the caller. -/
theorem claim_C7 :
    (∀ msg cats stats eps, fetchApisModel (Except.error msg) cats stats eps = ([], true)) ∧
    (∀ rows stats eps, fetchApisModel (Except.ok rows) none stats eps
        = fetchApisModel (Except.ok rows) (some []) stats eps) ∧
    (∀ rows cats eps, fetchApisModel (Except.ok rows) cats none eps
        = fetchApisModel (Except.ok rows) cats (some []) eps) ∧
    (∀ rows cats stats, fetchApisModel (Except.ok rows) cats stats none
        = fetchApisModel (Except.ok rows) cats stats (some [])) ∧
    (∀ rows cats stats eps, (fetchApisModel (Except.ok rows) cats stats eps).2 = false) ∧
    (∀ rows stats eps, (fetchApisModel (Except.ok rows) none stats eps).1.map
        (fun a => a.category) = rows.map fun _ => none) := by
  refine ⟨fun _ _ _ _ => rfl, fun _ _ _ => rfl, fun _ _ _ => rfl, fun _ _ _ => rfl,
    ?_, ?_⟩
  · intro rows cats stats eps
    by_cases h : rows.isEmpty <;> simp [fetchApisModel, h]
  · intro rows stats eps
    cases rows with
    | nil => rfl
    | cons r rs =>
      simp [fetchApisModel, enrichApi, List.map_map, Function.comp_def, objLookup]

/-- C8: the create flow attempts the API row insert first, then the stats row
(the default row exactly when no stats payload was supplied), then — only for
a non-empty endpoint list — the endpoint rows; it stops at the first failing
insert, returns `null`, and the writes committed before the failing step are
kept. -/
theorem claim_C8 :
    (∀ msg si sIns ei eIns f, createApiModel (Except.error msg) si sIns ei eIns f
        = (none, [])) ∧
    (∀ row si msg ei eIns f,
      createApiModel (Except.ok row) si (Except.error msg) ei eIns f
        = (none, [WriteStep.apiRow])) ∧
    (∀ row si e es msg f,
      createApiModel (Except.ok row) si (Except.ok ()) (some (e :: es))
          (Except.error msg) f
        = (none, [WriteStep.apiRow, WriteStep.statsRow si.isNone])) ∧
    (∀ row si e es f,
      createApiModel (Except.ok row) si (Except.ok ()) (some (e :: es))
          (Except.ok ()) f
        = (f, [WriteStep.apiRow, WriteStep.statsRow si.isNone,
            WriteStep.endpointRows])) ∧
    (∀ row si eIns f,
      createApiModel (Except.ok row) si (Except.ok ()) none eIns f
        = (f, [WriteStep.apiRow, WriteStep.statsRow si.isNone])) ∧
    (∀ row si eIns f,
      createApiModel (Except.ok row) si (Except.ok ()) (some []) eIns f
        = (f, [WriteStep.apiRow, WriteStep.statsRow si.isNone])) ∧
    (∀ row eIns f,
      createApiModel (Except.ok row) none (Except.ok ()) none eIns f
        = (f, [WriteStep.apiRow, WriteStep.statsRow true])) := by
  exact ⟨fun _ _ _ _ _ _ => rfl, fun _ _ _ _ _ _ => rfl, fun _ _ _ _ _ _ => rfl,
    fun _ _ _ _ _ => rfl, fun _ _ _ _ => rfl, fun _ _ _ _ => rfl,
    fun _ _ _ => rfl⟩

/-- C9: the filter/sort effect of the search page never mutates the fetched
input list — for every state and every combination of query, category filter,
auth-type filter and sort key, the `apis` list after the effect is the input
`apis` list. -/
theorem claim_C9 (st : SearchState) (q category authType : String)
    (sb : SortBy) :
    (runFilterEffect st q category authType sb).apis = st.apis := by
  by_cases h : st.apis.isEmpty <;> simp [runFilterEffect, h]

/-- C6: the text filter keeps exactly the records whose name, description, or
some tag contains the query as a case-insensitive substring (the empty query
keeps every record, matching the all-true predicate), and any letter case of
the query "pay" against "Payment API" and "Weather API" keeps only
"Payment API". -/
theorem claim_C6 :
    (∀ (l : List Api) (q : String),
      applySearchFilter q l = l.filter (claimTextPred q)) ∧
    (∀ q : String, jsToLower q = "pay" →
      applySearchFilter q [c6Payment, c6Weather] = [c6Payment]) := by
  constructor
  · intro l q
    by_cases hq : q = ""
    · subst hq
      have hfilter : List.filter (claimTextPred "") l = l :=
        List.filter_eq_self.mpr fun a _ => by
          simp [claimTextPred, jsToLower_empty, strIncludes_empty]
      simpa [applySearchFilter] using hfilter.symm
    · have hne : (q == "") = false := by simpa using hq
      simp only [applySearchFilter, hne, Bool.false_eq_true, if_false]
      rfl
  · intro q hq
    have hne : (q == "") = false := by
      refine beq_eq_false_iff_ne.mpr fun contra => ?_
      subst contra
      exact absurd hq (by decide)
    simp only [applySearchFilter, hne, Bool.false_eq_true, if_false, hq]
    decide

/-- C6 witness: the uppercase query "PAY" keeps only the "Payment API"
record. -/
theorem claim_C6_witness :
    applySearchFilter "PAY" [c6Payment, c6Weather] = [c6Payment] :=
  claim_C6.2 "PAY" (by decide)

/-- C3 counterexample: the claim says a record with no stats row is treated
as having the default 99.9 uptime in the rating sort; the code uses
`api.stats?.uptime || 0`, i.e. uptime 0 there.  Sorting a statless record
against one with uptime 50, the code puts the statless record last, while the
claimed 99.9 treatment puts it first. -/
theorem claim_C3_counterexample :
    sortStep SortBy.rating [c3NoStats, c3Low] = [c3Low, c3NoStats] ∧
    claimRatingSort [c3NoStats, c3Low] = [c3NoStats, c3Low] ∧
    ([c3Low, c3NoStats] : List Api) ≠ [c3NoStats, c3Low] := by
  decide

/-- C3 (amended): a record with no attached stats row is treated as having 0
total calls in the popularity sort key, the total-calls sum and the `topApis`
projection, uptime 0 in the rating sort key, and the default 99.9 uptime in
the `topApis` projection. -/
theorem claim_C3 (a : Api) (h : a.stats = none) :
    callsOf a = 0 ∧ ratingKey a = 0 ∧
    projTop a = ⟨a.id, a.name, 0, 99.9⟩ ∧
    ∀ rest : List Api,
      totalApiCallsModel (a :: rest) = totalApiCallsModel rest := by
  refine ⟨?_, ?_, ?_, ?_⟩
  · simp [callsOf, h]
  · simp [ratingKey, h]
  · simp [projTop, callsOf, h, uptimeDefault_eq]
  · intro rest
    simp [totalApiCallsModel, callsOf, h]

/-- C3 witness: the statless record `c3NoStats`. -/
theorem claim_C3_witness :
    callsOf c3NoStats = 0 ∧ ratingKey c3NoStats = 0 ∧
    projTop c3NoStats = ⟨c3NoStats.id, c3NoStats.name, 0, 99.9⟩ ∧
    ∀ rest : List Api,
      totalApiCallsModel (c3NoStats :: rest) = totalApiCallsModel rest :=
  claim_C3 c3NoStats rfl

/-- C4 counterexample: the claim says `newApisLastMonth` counts records
created within the last 30 days, but the code compares against
`setMonth(getMonth() - 1)` — one calendar month.  At the instant
2024-03-16T12:00Z, a record created 2024-02-15T20:00Z lies within the last 30
days (the 30-day window opens 2024-02-15T12:00Z) yet before the calendar
threshold 2024-02-16T12:00Z, so the code counts 0 where the claim requires
1. -/
theorem claim_C4_counterexample :
    newApisLastMonthModel c4Now [c4Record] = 0 ∧
    thirtyDayCount c4Now [c4Record] = 1 ∧ (0 : ℕ) ≠ 1 := by
  decide

/-- C4 (amended): the dashboard's `newApisLastMonth` equals the count of
records whose creation timestamp is strictly after the instant one calendar
month before the evaluation instant (JS `setMonth(getMonth() - 1)` with day
and time preserved, normalized by day overflow). -/
theorem claim_C4 (apis : List Api) (now : JsDate) (rand : ℕ → ℚ) :
    (getDashboardMetricsModel apis now rand).newApisLastMonth
      = (apis.filter fun a =>
          jsDateMillis (setMonthMinus1 now) < a.created_at).length :=
  rfl

/-- C5 counterexample: the claim says the `topApis` projection's uptime
defaults to 99.9 only when stats are absent; the code's
`api.stats?.uptime || 99.9` also replaces a present uptime of `0` (falsy in
JS) with 99.9, so a record whose stats row stores uptime 0 is projected with
uptime 99.9, not 0. -/
theorem claim_C5_counterexample :
    c5Zero.stats = some c5ZeroStats ∧ c5ZeroStats.uptime = 0 ∧
    (topApisModel [c5Zero]).map (fun e => e.uptime) = [uptimeDefault] ∧
    uptimeDefault = 99.9 ∧ (99.9 : ℚ) ≠ 0 := by
  refine ⟨rfl, rfl, by decide, uptimeDefault_eq, by norm_num⟩

/-- C5 (amended): `topApis` has length `min(3, totalApis)`, is ordered by
call count descending (missing stats counted as zero calls), every entry is
the projection (identifier, name, call count, uptime — defaulting to 99.9
when the stats row is absent or its uptime is the falsy 0) of some input
record, and when all call counts are equal the entries follow the input
order (stable sort). -/
theorem claim_C5 (apis : List Api) :
    (topApisModel apis).length = min 3 apis.length ∧
    (topApisModel apis).Pairwise (fun x y => y.calls ≤ x.calls) ∧
    (∀ e ∈ topApisModel apis, ∃ a ∈ apis, e = projTop a) ∧
    ((∀ a ∈ apis, ∀ b ∈ apis, callsOf a = callsOf b) →
      topApisModel apis = (apis.take 3).map projTop) := by
  haveI htot : IsTotal Api fun a b => callsOf b ≤ callsOf a :=
    ⟨fun a b => le_total (callsOf b) (callsOf a)⟩
  haveI htrans : IsTrans Api fun a b => callsOf b ≤ callsOf a :=
    ⟨fun _ _ _ hab hbc => le_trans hbc hab⟩
  refine ⟨?_, ?_, ?_, ?_⟩
  · simp [topApisModel, List.length_take, List.length_insertionSort]
  · have hs := List.sorted_insertionSort (fun a b => callsOf b ≤ callsOf a) apis
    have hp : ((apis.insertionSort fun a b => callsOf b ≤ callsOf a).take 3).Pairwise
        fun a b => callsOf b ≤ callsOf a :=
      hs.sublist (List.take_sublist 3 _)
    exact List.pairwise_map.mpr (hp.imp fun h => h)
  · intro e he
    obtain ⟨a, ha, rfl⟩ := List.mem_map.mp he
    exact ⟨a, (List.mem_insertionSort _).mp (List.mem_of_mem_take ha), rfl⟩
  · intro h
    have : apis.insertionSort (fun a b => callsOf b ≤ callsOf a) = apis :=
      insertionSort_eq_self_of_forall_rel _ apis
        fun a ha b hb => le_of_eq (h b hb a ha)
    rw [topApisModel, this]

/-- C5 witness: on the singleton list `[c5Zero]` (all call counts equal), the
projection and the stable tie-break hold concretely. -/
theorem claim_C5_witness :
    topApisModel [c5Zero] = ([c5Zero].take 3).map projTop :=
  (claim_C5 [c5Zero]).2.2.2 (by decide)

/-- C10 counterexample: the claim says any two runs over an identical input
set (same evaluation instant) produce identical summary output; but
`activeUsers` and `apiCallsOverTime` are generated from `Math.random()`, so
two runs whose random draws differ produce different output even on the same
(empty) input. -/
theorem claim_C10_counterexample :
    getDashboardMetricsModel [] c10Now (fun _ => 0)
      ≠ getDashboardMetricsModel [] c10Now (fun _ => 1) := by
  intro h
  have h2 := congrArg DashboardMetrics.activeUsers h
  simp [getDashboardMetricsModel] at h2

/-- C10 (amended): the dashboard summary is deterministic in every field not
derived from `Math.random()` — `totalApis`, `totalApiCalls`,
`newApisLastMonth`, `popularCategories` and `topApis` agree between any two
runs over the same input at the same instant, and ties in the top selection
are broken by input order (stable sort); `activeUsers` and
`apiCallsOverTime` are mocked from the random stream and may differ. -/
theorem claim_C10 (apis : List Api) (now : JsDate) (r1 r2 : ℕ → ℚ) :
    (getDashboardMetricsModel apis now r1).totalApis
        = (getDashboardMetricsModel apis now r2).totalApis ∧
    (getDashboardMetricsModel apis now r1).totalApiCalls
        = (getDashboardMetricsModel apis now r2).totalApiCalls ∧
    (getDashboardMetricsModel apis now r1).newApisLastMonth
        = (getDashboardMetricsModel apis now r2).newApisLastMonth ∧
    (getDashboardMetricsModel apis now r1).popularCategories
        = (getDashboardMetricsModel apis now r2).popularCategories ∧
    (getDashboardMetricsModel apis now r1).topApis
        = (getDashboardMetricsModel apis now r2).topApis ∧
    ((∀ a ∈ apis, ∀ b ∈ apis, callsOf a = callsOf b) →
      (getDashboardMetricsModel apis now r1).topApis = (apis.take 3).map projTop) := by
  refine ⟨rfl, rfl, rfl, rfl, rfl, ?_⟩
  intro h
  have : apis.insertionSort (fun a b => callsOf b ≤ callsOf a) = apis :=
    insertionSort_eq_self_of_forall_rel _ apis
      fun a ha b hb => le_of_eq (h b hb a ha)
  show topApisModel apis = _
  rw [topApisModel, this]

/-- C10 witness: on the empty input the tie-break hypothesis is vacuous and
the deterministic fields agree between two distinct random streams. -/
theorem claim_C10_witness :
    (getDashboardMetricsModel [] c10Now (fun _ => 0)).topApis
      = (([] : List Api).take 3).map projTop :=
  (claim_C10 [] c10Now (fun _ => 0) (fun _ => 1)).2.2.2.2.2 (by simp)

/-- Natural division is superadditive. -/
theorem nat_div_add_div_le (a b d : ℕ) : a / d + b / d ≤ (a + b) / d := by
  rcases Nat.eq_zero_or_pos d with hd | hd
  · subst hd; simp
  · rw [Nat.le_div_iff_mul_le hd, Nat.add_mul]
    exact Nat.add_le_add (Nat.div_mul_le_self a d) (Nat.div_mul_le_self b d)

/-- Summing the floored quotients is at most flooring the summed quotient. -/
theorem sum_map_div_le (xs : List ℕ) (d : ℕ) :
    (xs.map (· / d)).sum ≤ xs.sum / d := by
  induction xs with
  | nil => simp
  | cons x xs ih =>
    simp only [List.map_cons, List.sum_cons]
    exact le_trans (Nat.add_le_add_left ih (x / d)) (nat_div_add_div_le x xs.sum d)

/-- Bumping a category adds exactly one to the total member count. -/
theorem bumpCategory_sum (acc : List CatGroup) (cid cname : String) :
    ((bumpCategory acc cid cname).map CatGroup.count).sum
      = ((acc.map CatGroup.count).sum) + 1 := by
  induction acc with
  | nil => simp [bumpCategory]
  | cons g rest ih =>
    by_cases h : (g.id == cid) = true
    · simp [bumpCategory, h]
      omega
    · simp [bumpCategory, h, ih]
      omega

/-- The accumulated member counts never exceed the number of records folded
in, whatever the starting accumulator. -/
theorem foldl_categoryStep_sum (apis : List Api) :
    ∀ acc : List CatGroup,
      ((apis.foldl categoryStep acc).map CatGroup.count).sum
        ≤ ((acc.map CatGroup.count).sum) + apis.length := by
  induction apis with
  | nil => intro acc; simp
  | cons a rest ih =>
    intro acc
    simp only [List.foldl_cons, List.length_cons]
    refine le_trans (ih (categoryStep acc a)) ?_
    have hstep : ((categoryStep acc a).map CatGroup.count).sum
        ≤ ((acc.map CatGroup.count).sum) + 1 := by
      cases h : a.category with
      | none => simp [categoryStep, h]
      | some cat => simp [categoryStep, h, bumpCategory_sum]
    omega

/-- The total of the per-category member counts is at most the record
count. -/
theorem categoryCounts_sum_le (apis : List Api) :
    (((categoryCounts apis).map CatGroup.count).sum) ≤ apis.length := by
  simpa [categoryCounts] using foldl_categoryStep_sum apis []

/-- The rounded percentage is monotone in the group count. -/
theorem roundPct_mono {c c' : ℕ} (n : ℕ) (h : c ≤ c') :
    roundPct c n ≤ roundPct c' n :=
  Nat.div_le_div_right (by omega)

/-- An affine sum over a list of counts. -/
theorem sum_map_affine (cs : List ℕ) (n : ℕ) :
    (cs.map fun c => 200 * c + n).sum = 200 * cs.sum + cs.length * n := by
  induction cs with
  | nil => simp
  | cons c cs ih =>
    simp only [List.map_cons, List.sum_cons, List.length_cons, ih]
    ring

/-- A prefix of a list of naturals sums to at most the whole list. -/
theorem sum_take_le (l : List ℕ) (n : ℕ) : (l.take n).sum ≤ l.sum := by
  conv_rhs => rw [← List.sum_take_add_sum_drop l n]
  exact Nat.le_add_right _ _

/-- The selected top-5 group counts sum to at most the record count. -/
theorem selected_counts_sum_le (apis : List Api) :
    ((((categoryCounts apis).insertionSort fun g h => h.count ≤ g.count).take 5).map
        CatGroup.count).sum ≤ apis.length := by
  rw [List.map_take]
  have hperm : (((categoryCounts apis).insertionSort fun g h => h.count ≤ g.count).map
      CatGroup.count).sum = ((categoryCounts apis).map CatGroup.count).sum :=
    ((List.perm_insertionSort _ _).map CatGroup.count).sum_eq
  calc ((((categoryCounts apis).insertionSort fun g h => h.count ≤ g.count).map
          CatGroup.count).take 5).sum
      ≤ (((categoryCounts apis).insertionSort fun g h => h.count ≤ g.count).map
          CatGroup.count).sum := sum_take_le _ 5
    _ = ((categoryCounts apis).map CatGroup.count).sum := hperm
    _ ≤ apis.length := categoryCounts_sum_le apis

/-- The percentages of at most five groups whose counts sum to at most `n`
sum to at most 102 (each rounding adds at most one half). -/
theorem roundPct_sum_le (cs : List ℕ) (n : ℕ) (hn : 0 < n)
    (hlen : cs.length ≤ 5) (hsum : cs.sum ≤ n) :
    (cs.map fun c => roundPct c n).sum ≤ 102 := by
  have h1 : (cs.map fun c => roundPct c n).sum
      ≤ (cs.map fun c => 200 * c + n).sum / (2 * n) := by
    have := sum_map_div_le (cs.map fun c => 200 * c + n) (2 * n)
    simpa [roundPct, List.map_map, Function.comp_def] using this
  have h2 : (cs.map fun c => 200 * c + n).sum ≤ 205 * n := by
    rw [sum_map_affine]
    have := Nat.mul_le_mul_right n hlen
    omega
  have h3 : (cs.map fun c => 200 * c + n).sum / (2 * n) ≤ 205 * n / (2 * n) :=
    Nat.div_le_div_right h2
  have h4 : 205 * n / (2 * n) < 103 := by
    rw [Nat.div_lt_iff_lt_mul (by omega)]
    omega
  omega

/-! ## C1 -/

/-- C1 counterexample: eight records split 3/3/2 across three categories give
rounded percentages 38, 38 and 25 (both 37.5 values round up), which sum to
101 — the claim's bound of 100 fails. -/
theorem claim_C1_counterexample :
    ((popularCategoriesModel c1Apis).map Prod.snd).sum = 101 ∧
    ¬ ((popularCategoriesModel c1Apis).map Prod.snd).sum ≤ 100 := by
  decide

/-- C1 (amended): the category distribution keeps at most 5 groups; each
entry is the name of a grouped category with percentage
`round(100 * count / totalApis)` for that group's member count; the
percentages appear in non-increasing order (the groups are the top ones by
count descending); and the percentages sum to at most 102 — rounding each
share half-up can push the total up to 2 over 100. -/
theorem claim_C1 (apis : List Api) :
    (popularCategoriesModel apis).length ≤ 5 ∧
    (∀ e ∈ popularCategoriesModel apis, ∃ g ∈ categoryCounts apis,
      e = (g.name, roundPct g.count apis.length)) ∧
    (popularCategoriesModel apis).Pairwise (fun x y => y.2 ≤ x.2) ∧
    ((popularCategoriesModel apis).map Prod.snd).sum ≤ 102 := by
  haveI htot : IsTotal CatGroup fun g h => h.count ≤ g.count :=
    ⟨fun g h => le_total h.count g.count⟩
  haveI htrans : IsTrans CatGroup fun g h => h.count ≤ g.count :=
    ⟨fun _ _ _ hab hbc => le_trans hbc hab⟩
  refine ⟨?_, ?_, ?_, ?_⟩
  · simp only [popularCategoriesModel, List.length_map, List.length_take]
    omega
  · intro e he
    obtain ⟨g, hg, rfl⟩ := List.mem_map.mp he
    exact ⟨g, (List.mem_insertionSort _).mp (List.mem_of_mem_take hg), rfl⟩
  · have hs := List.sorted_insertionSort (fun g h : CatGroup => h.count ≤ g.count)
      (categoryCounts apis)
    have hp := hs.sublist (List.take_sublist 5 _)
    exact List.pairwise_map.mpr (hp.imp fun h => roundPct_mono _ h)
  · cases happ : apis with
    | nil =>
      subst happ
      decide
    | cons a rest =>
      have hn : 0 < apis.length := by rw [happ]; simp
      have hmaps : ((popularCategoriesModel apis).map Prod.snd).sum
          = (((((categoryCounts apis).insertionSort fun g h => h.count ≤ g.count).take 5).map
              CatGroup.count).map fun c => roundPct c apis.length).sum := by
        simp [popularCategoriesModel, List.map_map, Function.comp_def]
      rw [← happ] at *
      rw [hmaps]
      refine roundPct_sum_le _ _ hn ?_ (selected_counts_sum_le apis)
      simp only [List.length_map, List.length_take]
      omega

/-- C1 witness: the entry `("Alpha", 38)` of the concrete distribution comes
from a grouped category with the rounded-percentage formula. -/
theorem claim_C1_witness :
    ∃ g ∈ categoryCounts c1Apis, ("Alpha", 38) = (g.name, roundPct g.count c1Apis.length) :=
  (claim_C1 c1Apis).2.1 ("Alpha", 38) (by decide)

end ApiVistaHub
